import Mathlib

/-!
Verification development for the `ipld-eth-indexer` cleaner and streamer
(`src/pkg/eth/cleaner.go`, `src/pkg/eth/streamer.go`).

The relational state is embedded shallowly: each table is a list of rows,
each SQL `DELETE`/`UPDATE` of `cleaner.go` is a pure function on the
database state, and the fallible execution of `DBCleaner.Clean` /
`DBCleaner.ResetValidation` (transaction begin, per-statement execution,
commit, post-commit vacuum) is modelled by a runner parameterised by the
set of call indices at which the database driver fails.
-/

namespace IpldEth

/-- A row of `public.blocks` (the content-addressed blob store):
`key bytea PRIMARY KEY, data bytea`. -/
structure BlockRow where
  key : String
  data : String
deriving DecidableEq, Repr

/-- A row of `eth.header_cids`.  Besides the columns the cleaner touches
(`id`, `block_number`, `mh_key`, `times_validated`), all remaining columns
(`block_hash`, `parent_hash`, `cid`, `td`, ...) are collapsed into `rest`. -/
structure HeaderRow where
  id : Nat
  blockNumber : Nat
  mhKey : String
  timesValidated : Nat
  rest : String
deriving DecidableEq, Repr

/-- A row of `eth.uncle_cids` (`header_id` references `eth.header_cids.id`). -/
structure UncleRow where
  id : Nat
  headerId : Nat
  mhKey : String
  rest : String
deriving DecidableEq, Repr

/-- A row of `eth.transaction_cids` (`header_id` references `eth.header_cids.id`). -/
structure TxRow where
  id : Nat
  headerId : Nat
  mhKey : String
  rest : String
deriving DecidableEq, Repr

/-- A row of `eth.receipt_cids` (`tx_id` references `eth.transaction_cids.id`). -/
structure ReceiptRow where
  id : Nat
  txId : Nat
  mhKey : String
  rest : String
deriving DecidableEq, Repr

/-- A row of `eth.state_cids` (`header_id` references `eth.header_cids.id`). -/
structure StateRow where
  id : Nat
  headerId : Nat
  mhKey : String
  rest : String
deriving DecidableEq, Repr

/-- A row of `eth.storage_cids` (`state_id` references `eth.state_cids.id`). -/
structure StorageRow where
  id : Nat
  stateId : Nat
  mhKey : String
  rest : String
deriving DecidableEq, Repr

/-- The database state the cleaner operates on: the blob store
`public.blocks` plus the six `eth.*` metadata tables. -/
structure DB where
  blocks : List BlockRow
  header_cids : List HeaderRow
  uncle_cids : List UncleRow
  transaction_cids : List TxRow
  receipt_cids : List ReceiptRow
  state_cids : List StateRow
  storage_cids : List StorageRow
deriving DecidableEq, Repr

/-- An inclusive block range `[lo, hi]`, the `[2]uint64` of the Go code. -/
abbrev Rng := Nat × Nat

/-- SQL `x BETWEEN lo AND hi` on block numbers. -/
def between (lo x hi : Nat) : Bool :=
  decide (lo ≤ x) && decide (x ≤ hi)

/-- Modelled from the spec: `shared.DataType` (package `pkg/shared`, not under
`src/`).  Spec §4.6 enumerates the kinds `{Full, Headers, Uncles,
Transactions, Receipts, State, Storage}`; `other` stands for every
remaining (unrecognized) value of the underlying integer enum. -/
inductive DataType where
  | Full
  | Headers
  | Uncles
  | Transactions
  | Receipts
  | State
  | Storage
  | other (n : Nat)
deriving DecidableEq, Repr

/-- Errors surfaced by the cleaner: the `unrecognized type` error of the
`default` switch branches, or a database-driver failure of one call. -/
inductive CErr where
  | unknownDataKind
  | execFailure
deriving DecidableEq, Repr

/-! ### Row-selection predicates, one per SQL join of `cleaner.go` -/

/-- `eth.uncle_cids A USING eth.header_cids B WHERE A.header_id = B.id AND
B.block_number BETWEEN lo AND hi` (`cleanUncleMetaData`). -/
def uncleInRange (d : DB) (rng : Rng) (u : UncleRow) : Bool :=
  d.header_cids.any fun h => u.headerId == h.id && between rng.1 h.blockNumber rng.2

/-- `eth.transaction_cids A USING eth.header_cids B WHERE A.header_id = B.id
AND B.block_number BETWEEN lo AND hi` (`cleanTransactionMetaData`). -/
def txInRange (d : DB) (rng : Rng) (t : TxRow) : Bool :=
  d.header_cids.any fun h => t.headerId == h.id && between rng.1 h.blockNumber rng.2

/-- `eth.receipt_cids A USING eth.transaction_cids B, eth.header_cids C WHERE
A.tx_id = B.id AND B.header_id = C.id AND C.block_number BETWEEN lo AND hi`
(`cleanReceiptMetaData`). -/
def rctInRange (d : DB) (rng : Rng) (r : ReceiptRow) : Bool :=
  d.transaction_cids.any fun t => r.txId == t.id && txInRange d rng t

/-- `eth.state_cids A USING eth.header_cids B WHERE A.header_id = B.id AND
B.block_number BETWEEN lo AND hi` (`cleanStateMetaData`). -/
def stateInRange (d : DB) (rng : Rng) (s : StateRow) : Bool :=
  d.header_cids.any fun h => s.headerId == h.id && between rng.1 h.blockNumber rng.2

/-- `eth.storage_cids A USING eth.state_cids B, eth.header_cids C WHERE
A.state_id = B.id AND B.header_id = C.id AND C.block_number BETWEEN lo AND hi`
(`cleanStorageMetaData`). -/
def storageInRange (d : DB) (rng : Rng) (s : StorageRow) : Bool :=
  d.state_cids.any fun st => s.stateId == st.id && stateInRange d rng st

/-- `public.blocks A USING eth.header_cids B WHERE A.key = B.mh_key AND
B.block_number BETWEEN lo AND hi` (`cleanHeaderIPLDs`). -/
def headerBlobRef (d : DB) (rng : Rng) (key : String) : Bool :=
  d.header_cids.any fun b => key == b.mhKey && between rng.1 b.blockNumber rng.2

/-- `public.blocks A USING eth.uncle_cids B, eth.header_cids C WHERE
A.key = B.mh_key AND B.header_id = C.id AND C.block_number BETWEEN lo AND hi`
(`cleanUncleIPLDs`). -/
def uncleBlobRef (d : DB) (rng : Rng) (key : String) : Bool :=
  d.uncle_cids.any fun b => key == b.mhKey && uncleInRange d rng b

/-- `public.blocks A USING eth.transaction_cids B, eth.header_cids C WHERE
A.key = B.mh_key AND B.header_id = C.id AND C.block_number BETWEEN lo AND hi`
(`cleanTransactionIPLDs`). -/
def txBlobRef (d : DB) (rng : Rng) (key : String) : Bool :=
  d.transaction_cids.any fun b => key == b.mhKey && txInRange d rng b

/-- `public.blocks A USING eth.receipt_cids B, eth.transaction_cids C,
eth.header_cids D WHERE A.key = B.mh_key AND B.tx_id = C.id AND
C.header_id = D.id AND D.block_number BETWEEN lo AND hi` (`cleanReceiptIPLDs`). -/
def rctBlobRef (d : DB) (rng : Rng) (key : String) : Bool :=
  d.receipt_cids.any fun b => key == b.mhKey && rctInRange d rng b

/-- `public.blocks A USING eth.state_cids B, eth.header_cids C WHERE
A.key = B.mh_key AND B.header_id = C.id AND C.block_number BETWEEN lo AND hi`
(`cleanStateIPLDs`). -/
def stateBlobRef (d : DB) (rng : Rng) (key : String) : Bool :=
  d.state_cids.any fun b => key == b.mhKey && stateInRange d rng b

/-- `public.blocks A USING eth.storage_cids B, eth.state_cids C,
eth.header_cids D WHERE A.key = B.mh_key AND B.state_id = C.id AND
C.header_id = D.id AND D.block_number BETWEEN lo AND hi` (`cleanStorageIPLDs`). -/
def storageBlobRef (d : DB) (rng : Rng) (key : String) : Bool :=
  d.storage_cids.any fun b => key == b.mhKey && storageInRange d rng b

/-! ### Foreign-key cascade -/

/-- Modelled from the spec: the relational schema of §3 declares the foreign
keys `uncle_cid.header_id → header_cid`, `transaction_cid.header_id →
header_cid`, `receipt_cid.tx_id → transaction_cid`, `state_cid.header_id →
header_cid`, `storage_cid.state_id → state_cid`, and invariant 2 requires a
child row never to outlive its parent.  The migration SQL declaring these
keys `ON DELETE CASCADE` is not under `src/`; the in-repo cleaner test
(`src/pkg/eth/cleaner_test.go`) witnesses the cascade (a Full clean empties
every child table although `cleanFull` only deletes header rows).
`cascade` removes every child row whose parent row is gone; it is applied
at each metadata `DELETE`, as the database engine does. -/
def cascade (d : DB) : DB :=
  let txs := d.transaction_cids.filter fun t =>
    d.header_cids.any fun h => t.headerId == h.id
  let sts := d.state_cids.filter fun s =>
    d.header_cids.any fun h => s.headerId == h.id
  { d with
    uncle_cids := d.uncle_cids.filter fun u =>
      d.header_cids.any fun h => u.headerId == h.id
    transaction_cids := txs
    receipt_cids := d.receipt_cids.filter fun r => txs.any fun t => r.txId == t.id
    state_cids := sts
    storage_cids := d.storage_cids.filter fun s => sts.any fun st => s.stateId == st.id }

/-! ### The deletion statements of `cleaner.go` -/

/-- `DBCleaner.cleanStorageIPLDs`: delete the blobs of in-range storage nodes. -/
def cleanStorageIPLDs (d : DB) (rng : Rng) : DB :=
  { d with blocks := d.blocks.filter fun a => !(storageBlobRef d rng a.key) }

/-- `DBCleaner.cleanStorageMetaData`: delete the in-range storage rows. -/
def cleanStorageMetaData (d : DB) (rng : Rng) : DB :=
  cascade { d with storage_cids := d.storage_cids.filter fun a => !(storageInRange d rng a) }

/-- `DBCleaner.cleanStateIPLDs`: delete the blobs of in-range state nodes. -/
def cleanStateIPLDs (d : DB) (rng : Rng) : DB :=
  { d with blocks := d.blocks.filter fun a => !(stateBlobRef d rng a.key) }

/-- `DBCleaner.cleanStateMetaData`: delete the in-range state rows. -/
def cleanStateMetaData (d : DB) (rng : Rng) : DB :=
  cascade { d with state_cids := d.state_cids.filter fun a => !(stateInRange d rng a) }

/-- `DBCleaner.cleanReceiptIPLDs`: delete the blobs of in-range receipts. -/
def cleanReceiptIPLDs (d : DB) (rng : Rng) : DB :=
  { d with blocks := d.blocks.filter fun a => !(rctBlobRef d rng a.key) }

/-- `DBCleaner.cleanReceiptMetaData`: delete the in-range receipt rows. -/
def cleanReceiptMetaData (d : DB) (rng : Rng) : DB :=
  cascade { d with receipt_cids := d.receipt_cids.filter fun a => !(rctInRange d rng a) }

/-- `DBCleaner.cleanTransactionIPLDs`: delete the blobs of in-range transactions. -/
def cleanTransactionIPLDs (d : DB) (rng : Rng) : DB :=
  { d with blocks := d.blocks.filter fun a => !(txBlobRef d rng a.key) }

/-- `DBCleaner.cleanTransactionMetaData`: delete the in-range transaction rows. -/
def cleanTransactionMetaData (d : DB) (rng : Rng) : DB :=
  cascade { d with transaction_cids := d.transaction_cids.filter fun a => !(txInRange d rng a) }

/-- `DBCleaner.cleanUncleIPLDs`: delete the blobs of in-range uncles. -/
def cleanUncleIPLDs (d : DB) (rng : Rng) : DB :=
  { d with blocks := d.blocks.filter fun a => !(uncleBlobRef d rng a.key) }

/-- `DBCleaner.cleanUncleMetaData`: delete the in-range uncle rows. -/
def cleanUncleMetaData (d : DB) (rng : Rng) : DB :=
  cascade { d with uncle_cids := d.uncle_cids.filter fun a => !(uncleInRange d rng a) }

/-- `DBCleaner.cleanHeaderIPLDs`: delete the blobs of in-range headers. -/
def cleanHeaderIPLDs (d : DB) (rng : Rng) : DB :=
  { d with blocks := d.blocks.filter fun a => !(headerBlobRef d rng a.key) }

/-- `DBCleaner.cleanHeaderMetaData`: `DELETE FROM eth.header_cids WHERE
block_number BETWEEN lo AND hi`. -/
def cleanHeaderMetaData (d : DB) (rng : Rng) : DB :=
  cascade { d with header_cids := d.header_cids.filter fun h => !(between rng.1 h.blockNumber rng.2) }

/-- The sequence of deletion statements `DBCleaner.clean` issues for each
recognized kind (the `switch` of `cleaner.go`); `none` for the `default`
branch.  `Full` and `Headers` share one `case` and run `cleanFull`. -/
def cleanOps : DataType → Option (List (DB → Rng → DB))
  | .Full | .Headers =>
    some [cleanStorageIPLDs, cleanStateIPLDs, cleanReceiptIPLDs,
      cleanTransactionIPLDs, cleanUncleIPLDs, cleanHeaderIPLDs, cleanHeaderMetaData]
  | .Uncles => some [cleanUncleIPLDs, cleanUncleMetaData]
  | .Transactions => some [cleanReceiptIPLDs, cleanTransactionIPLDs, cleanTransactionMetaData]
  | .Receipts => some [cleanReceiptIPLDs, cleanReceiptMetaData]
  | .State => some [cleanStorageIPLDs, cleanStateIPLDs, cleanStateMetaData]
  | .Storage => some [cleanStorageIPLDs, cleanStorageMetaData]
  | .other _ => none

/-- Number of `VACUUM ANALYZE` statements `DBCleaner.vacuumAnalyze` issues
per kind (`Full`/`Headers` return from `vacuumFull` without reaching
`vacuumIPLDs`; every other recognized kind ends with `vacuumIPLDs`);
`none` for the `default` branch. -/
def vacuumCalls : DataType → Option Nat
  | .Full | .Headers => some 7
  | .Uncles => some 2
  | .Transactions => some 3
  | .Receipts => some 2
  | .State => some 4
  | .Storage => some 2
  | .other _ => none

/-- Run a list of deletion statements on one range (the body of one
`DBCleaner.clean` dispatch). -/
def applyOps (ops : List (DB → Rng → DB)) (d : DB) (rng : Rng) : DB :=
  ops.foldl (fun d op => op d rng) d

/-- `DBCleaner.clean` when every statement execution succeeds. -/
def DBCleaner.clean (d : DB) (rng : Rng) (t : DataType) : Except CErr DB :=
  match cleanOps t with
  | some ops => .ok (applyOps ops d rng)
  | none => .error .unknownDataKind

/-- The loop of `DBCleaner.Clean` over the range list, failure-free. -/
def cleanRanges (t : DataType) : List Rng → DB → Except CErr DB
  | [], d => .ok d
  | r :: rs, d =>
    match DBCleaner.clean d r t with
    | .error e => .error e
    | .ok d' => cleanRanges t rs d'

/-- `DBCleaner.Clean` when every database call succeeds: loop the deletion
statements over the ranges inside one transaction, commit, then vacuum
(`vacuumAnalyze` only contributes its `default`-branch error here, since
vacuum statements do not change the logical table contents). -/
def DBCleaner.Clean (d : DB) (rngs : List Rng) (t : DataType) : Except CErr DB :=
  match cleanRanges t rngs d with
  | .error e => .error e
  | .ok d' =>
    match vacuumCalls t with
    | none => .error .unknownDataKind
    | some _ => .ok d'

/-- The final table state `Clean` commits when the whole deletion loop
succeeds (for an unrecognized kind the loop only succeeds when the range
list is empty, leaving the state unchanged). -/
def CleanValue (d : DB) (rngs : List Rng) (t : DataType) : DB :=
  match cleanOps t with
  | some ops => rngs.foldl (fun d r => applyOps ops d r) d
  | none => d

/-- The per-row effect of `UPDATE eth.header_cids SET times_validated = 0
WHERE block_number BETWEEN lo AND hi`. -/
def resetOne (rng : Rng) (h : HeaderRow) : HeaderRow :=
  if between rng.1 h.blockNumber rng.2 then { h with timesValidated := 0 } else h

/-- One `UPDATE eth.header_cids SET times_validated = 0 WHERE block_number
BETWEEN lo AND hi` (the loop body of `DBCleaner.ResetValidation`). -/
def resetRange (d : DB) (rng : Rng) : DB :=
  { d with header_cids := d.header_cids.map (resetOne rng) }

/-- `DBCleaner.ResetValidation` when every database call succeeds. -/
def DBCleaner.ResetValidation (d : DB) (rngs : List Rng) : DB :=
  rngs.foldl resetRange d

/-- Membership of a block number in at least one of the given ranges. -/
def inAnyRangeB (rngs : List Rng) (n : Nat) : Bool :=
  rngs.any fun r => between r.1 n r.2

/-! ### Fallible execution

Each database call (`Beginx`, every `tx.Exec`, `tx.Commit`, every vacuum
`db.Exec`) is numbered in issue order; a run is parameterised by the list
`fs` of call numbers at which the driver fails.  `committed` is the durable
table state after the run, `begins` the number of transactions opened and
`committedTx` whether the transaction reached a successful commit. -/

structure Outcome where
  err : Option CErr
  committed : DB
  begins : Nat
  committedTx : Bool
deriving DecidableEq, Repr

/-- Execute the deletion statements of one range inside the transaction,
threading the call counter; `none` on the first failing call. -/
def runOps (fs : List Nat) : List (DB → Rng → DB) → Rng → DB → Nat → Option (DB × Nat)
  | [], _, d, cnt => some (d, cnt)
  | op :: ops, r, d, cnt =>
    if fs.contains cnt then none else runOps fs ops r (op d r) (cnt + 1)

/-- The range loop of `DBCleaner.Clean` under fallible execution: for each
range, dispatch on the kind (`default` branch errors with no call issued)
and execute its statements. -/
def cleanLoop (fs : List Nat) (opsOpt : Option (List (DB → Rng → DB))) :
    List Rng → DB → Nat → Except CErr (DB × Nat)
  | [], d, cnt => .ok (d, cnt)
  | r :: rs, d, cnt =>
    match opsOpt with
    | none => .error .unknownDataKind
    | some ops =>
      match runOps fs ops r d cnt with
      | none => .error .execFailure
      | some (d', cnt') => cleanLoop fs opsOpt rs d' cnt'

/-- The vacuum phase: issue the kind's vacuum statements (`default` branch
errors first); a failing call yields the first error.  Vacuum statements do
not change the logical table contents. -/
def vacuumRun (fs : List Nat) (t : DataType) (cnt : Nat) : Option CErr :=
  match vacuumCalls t with
  | none => some .unknownDataKind
  | some k =>
    if (List.range k).any (fun i => fs.contains (cnt + i)) then some .execFailure else none

/-- Fallible execution of `DBCleaner.Clean`: `Beginx` (call 0), the deletion
loop over all ranges inside that single transaction (rollback on error),
`tx.Commit`, then the post-commit vacuum phase. -/
def CleanRun (d : DB) (rngs : List Rng) (t : DataType) (fs : List Nat) : Outcome :=
  if fs.contains 0 then ⟨some .execFailure, d, 0, false⟩ else
    match cleanLoop fs (cleanOps t) rngs d 1 with
    | .error e => ⟨some e, d, 1, false⟩
    | .ok (pending, cnt) =>
      if fs.contains cnt then ⟨some .execFailure, d, 1, false⟩
      else
        match vacuumRun fs t (cnt + 1) with
        | some e => ⟨some e, pending, 1, true⟩
        | none => ⟨none, pending, 1, true⟩

/-- The range loop of `DBCleaner.ResetValidation` under fallible execution. -/
def resetLoop (fs : List Nat) : List Rng → DB → Nat → Option (DB × Nat)
  | [], d, cnt => some (d, cnt)
  | r :: rs, d, cnt =>
    if fs.contains cnt then none else resetLoop fs rs (resetRange d r) (cnt + 1)

/-- Fallible execution of `DBCleaner.ResetValidation`: `Beginx` (call 0),
one `UPDATE` per range, `tx.Commit`; rollback discards all updates. -/
def ResetValidationRun (d : DB) (rngs : List Rng) (fs : List Nat) : Outcome :=
  if fs.contains 0 then ⟨some .execFailure, d, 0, false⟩ else
    match resetLoop fs rngs d 1 with
    | none => ⟨some .execFailure, d, 1, false⟩
    | some (pending, cnt) =>
      if fs.contains cnt then ⟨some .execFailure, d, 1, false⟩
      else ⟨none, pending, 1, true⟩

/-! ### Well-formedness of a database state -/

/-- Primary-key uniqueness of the id columns the cleaner's joins traverse,
and resolution of every foreign key (guaranteed by the schema's
constraints). -/
def wf (d : DB) : Prop :=
  (d.header_cids.map HeaderRow.id).Nodup ∧
  (d.transaction_cids.map TxRow.id).Nodup ∧
  (d.state_cids.map StateRow.id).Nodup ∧
  (∀ u ∈ d.uncle_cids, ∃ h ∈ d.header_cids, u.headerId = h.id) ∧
  (∀ t ∈ d.transaction_cids, ∃ h ∈ d.header_cids, t.headerId = h.id) ∧
  (∀ r ∈ d.receipt_cids, ∃ t ∈ d.transaction_cids, r.txId = t.id) ∧
  (∀ s ∈ d.state_cids, ∃ h ∈ d.header_cids, s.headerId = h.id) ∧
  (∀ s ∈ d.storage_cids, ∃ st ∈ d.state_cids, s.stateId = st.id)

instance (d : DB) : Decidable (wf d) := by
  unfold wf; infer_instance

/-! ### The streamer (`src/pkg/eth/streamer.go`) -/

/-- The five `statediff.Params` fields `NewPayloadStreamer` sets. -/
structure Params where
  includeBlock : Bool
  includeTD : Bool
  includeReceipts : Bool
  intermediateStorageNodes : Bool
  intermediateStateNodes : Bool
deriving DecidableEq, Repr

/-- `PayloadStreamer`: holds the subscription parameters fixed at
construction (the RPC client is the injected collaborator the subscribe
call is handed to). -/
structure PayloadStreamer where
  params : Params
deriving DecidableEq, Repr

/-- `NewPayloadStreamer`: every parameter field is set to `true`. -/
def NewPayloadStreamer : PayloadStreamer :=
  { params :=
    { includeBlock := true
      includeTD := true
      includeReceipts := true
      intermediateStorageNodes := true
      intermediateStateNodes := true } }

/-- The argument tuple `PayloadStreamer.Stream` passes to
`StreamClient.Subscribe`: namespace, payload channel, method, parameters. -/
structure SubscribeCall where
  ns : String
  payloadChan : Nat
  method : String
  params : Params
deriving DecidableEq, Repr

/-- `PayloadStreamer.Stream`: subscribe on namespace `"statediff"` with
method `"stream"` and the streamer's parameters. -/
def PayloadStreamer.Stream (ps : PayloadStreamer) (payloadChan : Nat) : SubscribeCall :=
  { ns := "statediff", payloadChan := payloadChan, method := "stream", params := ps.params }

/-! ### Blob-reference summaries used in the statements about `Clean Full` -/

/-- The key is referenced by some in-range metadata row (a row the Full
clean deletes): the disjunction of the six blob-join predicates. -/
def refByInRangeB (d : DB) (rng : Rng) (key : String) : Bool :=
  headerBlobRef d rng key || uncleBlobRef d rng key || txBlobRef d rng key ||
    rctBlobRef d rng key || stateBlobRef d rng key || storageBlobRef d rng key

/-- The key is referenced by some metadata row outside the range (a row the
Full clean keeps). -/
def refByOutRangeB (d : DB) (rng : Rng) (key : String) : Bool :=
  (d.header_cids.any fun h => key == h.mhKey && !(between rng.1 h.blockNumber rng.2)) ||
  (d.uncle_cids.any fun u => key == u.mhKey && !(uncleInRange d rng u)) ||
  (d.transaction_cids.any fun t => key == t.mhKey && !(txInRange d rng t)) ||
  (d.receipt_cids.any fun r => key == r.mhKey && !(rctInRange d rng r)) ||
  (d.state_cids.any fun s => key == s.mhKey && !(stateInRange d rng s)) ||
  (d.storage_cids.any fun s => key == s.mhKey && !(storageInRange d rng s))

/-- The ownership chains of spec invariant 2: every storage row's owning
state row is present, and every state row's owning header row is present. -/
def ownershipB (d : DB) : Bool :=
  (d.state_cids.all fun s => d.header_cids.any fun h => s.headerId == h.id) &&
  (d.storage_cids.all fun s => d.state_cids.any fun st => s.stateId == st.id)

/-! ### Concrete example database (two blocks, one of them in range `[2,5]`) -/

/-- A well-formed example state: header 1 at block 3 with one uncle, one
transaction (id 1) with its receipt, one state node (id 1) with one storage
node; header 2 at block 10 with transaction 2 and state node 2; one blob
per row plus an unreferenced blob. -/
def exDB : DB where
  blocks := [⟨"hKey1", "x"⟩, ⟨"hKey2", "x"⟩, ⟨"uKey1", "x"⟩, ⟨"tKey1", "x"⟩,
    ⟨"tKey2", "x"⟩, ⟨"rKey1", "x"⟩, ⟨"sKey1", "x"⟩, ⟨"sKey2", "x"⟩,
    ⟨"stKey1", "x"⟩, ⟨"freeKey", "x"⟩]
  header_cids := [⟨1, 3, "hKey1", 1, "ha"⟩, ⟨2, 10, "hKey2", 2, "hb"⟩]
  uncle_cids := [⟨1, 1, "uKey1", "ua"⟩]
  transaction_cids := [⟨1, 1, "tKey1", "ta"⟩, ⟨2, 2, "tKey2", "tb"⟩]
  receipt_cids := [⟨1, 1, "rKey1", "ra"⟩]
  state_cids := [⟨1, 1, "sKey1", "sa"⟩, ⟨2, 2, "sKey2", "sb"⟩]
  storage_cids := [⟨1, 1, "stKey1", "sta"⟩]

/-! ### Supporting lemmas -/

/-- The per-header effect of `ResetValidation` over a range list. -/
def resetHeader (rngs : List Rng) (h : HeaderRow) : HeaderRow :=
  if inAnyRangeB rngs h.blockNumber then { h with timesValidated := 0 } else h

theorem resetOne_then (rs : List Rng) (r : Rng) (h : HeaderRow) :
    resetHeader rs (resetOne r h) = resetHeader (r :: rs) h := by
  by_cases hb : between r.1 h.blockNumber r.2 = true
  · have h0 : resetOne r h = { h with timesValidated := 0 } := by
      simp [resetOne, hb]
    rw [h0]
    have hin : inAnyRangeB (r :: rs) h.blockNumber = true := by
      simp [inAnyRangeB, hb]
    simp only [resetHeader, hin, if_true]
    by_cases hr : inAnyRangeB rs h.blockNumber = true <;> simp [hr]
  · have h0 : resetOne r h = h := by
      simp [resetOne, hb]
    rw [h0]
    have hin : inAnyRangeB (r :: rs) h.blockNumber = inAnyRangeB rs h.blockNumber := by
      simp only [inAnyRangeB, List.any_cons]
      rw [Bool.not_eq_true] at hb
      rw [hb, Bool.false_or]
    simp only [resetHeader, hin]

theorem resetValidation_eq (rngs : List Rng) : ∀ d : DB,
    DBCleaner.ResetValidation d rngs =
      { d with header_cids := d.header_cids.map (resetHeader rngs) } := by
  induction rngs with
  | nil =>
    intro d
    show d = { d with header_cids := d.header_cids.map (resetHeader []) }
    have hmap : d.header_cids.map (resetHeader []) = d.header_cids := by
      rw [List.map_congr_left (g := id) ?_, List.map_id]
      intro a _
      simp [resetHeader, inAnyRangeB]
    rw [hmap]
  | cons r rs ih =>
    intro d
    show DBCleaner.ResetValidation (resetRange d r) rs = _
    rw [ih (resetRange d r)]
    show { d with header_cids := (d.header_cids.map (resetOne r)).map (resetHeader rs) } = _
    rw [List.map_map]
    have hpt : ∀ h ∈ d.header_cids,
        (resetHeader rs ∘ resetOne r) h = resetHeader (r :: rs) h := by
      intro h _
      exact resetOne_then rs r h
    rw [List.map_congr_left hpt]

/-- A successful `runOps` computes exactly `applyOps`. -/
theorem runOps_ok (fs : List Nat) (r : Rng) :
    ∀ (ops : List (DB → Rng → DB)) (d : DB) (cnt : Nat) (d' : DB) (cnt' : Nat),
      runOps fs ops r d cnt = some (d', cnt') → d' = applyOps ops d r := by
  intro ops
  induction ops with
  | nil =>
    intro d cnt d' cnt' h
    simp only [runOps, Option.some.injEq, Prod.mk.injEq] at h
    simp [applyOps, h.1]
  | cons op ops ih =>
    intro d cnt d' cnt' h
    simp only [runOps] at h
    split at h
    · exact absurd h (by simp)
    · exact ih (op d r) (cnt + 1) d' cnt' h

/-- A successful deletion loop computes exactly `CleanValue`. -/
theorem cleanLoop_ok (fs : List Nat) (t : DataType) :
    ∀ (rngs : List Rng) (d : DB) (cnt : Nat) (d' : DB) (cnt' : Nat),
      cleanLoop fs (cleanOps t) rngs d cnt = .ok (d', cnt') → d' = CleanValue d rngs t := by
  intro rngs
  induction rngs with
  | nil =>
    intro d cnt d' cnt' h
    simp only [cleanLoop, Except.ok.injEq, Prod.mk.injEq] at h
    cases hops : cleanOps t <;> simp [CleanValue, hops, h.1]
  | cons r rs ih =>
    intro d cnt d' cnt' h
    rw [show cleanLoop fs (cleanOps t) (r :: rs) d cnt =
      (match cleanOps t with
        | none => Except.error .unknownDataKind
        | some ops =>
          match runOps fs ops r d cnt with
          | none => Except.error .execFailure
          | some (d1, cnt1) => cleanLoop fs (cleanOps t) rs d1 cnt1) from rfl] at h
    split at h
    · exact absurd h (by simp)
    · rename_i ops hops
      split at h
      · exact absurd h (by simp)
      · rename_i d1 cnt1 hrun
        have hd1 : d1 = applyOps ops d r := runOps_ok fs r ops d cnt d1 cnt1 hrun
        have := ih d1 cnt1 d' cnt' h
        rw [this, hd1]
        simp [CleanValue, hops]

/-- `cascade` restores the ownership chains unconditionally. -/
theorem ownership_cascade (d : DB) : ownershipB (cascade d) = true := by
  simp only [ownershipB, cascade, Bool.and_eq_true, List.all_eq_true]
  constructor
  · intro s hs
    exact (List.mem_filter.mp hs).2
  · intro s hs
    exact (List.mem_filter.mp hs).2

/-- Every recognized kind's statement sequence ends in a metadata `DELETE`,
whose cascade re-establishes the ownership chains. -/
theorem ownership_applyOps (t : DataType) (ops : List (DB → Rng → DB))
    (hops : cleanOps t = some ops) (d : DB) (r : Rng) :
    ownershipB (applyOps ops d r) = true := by
  cases t with
  | Full =>
    simp only [cleanOps, Option.some.injEq] at hops
    subst hops
    exact ownership_cascade _
  | Headers =>
    simp only [cleanOps, Option.some.injEq] at hops
    subst hops
    exact ownership_cascade _
  | Uncles =>
    simp only [cleanOps, Option.some.injEq] at hops
    subst hops
    exact ownership_cascade _
  | Transactions =>
    simp only [cleanOps, Option.some.injEq] at hops
    subst hops
    exact ownership_cascade _
  | Receipts =>
    simp only [cleanOps, Option.some.injEq] at hops
    subst hops
    exact ownership_cascade _
  | State =>
    simp only [cleanOps, Option.some.injEq] at hops
    subst hops
    exact ownership_cascade _
  | Storage =>
    simp only [cleanOps, Option.some.injEq] at hops
    subst hops
    exact ownership_cascade _
  | other n => simp [cleanOps] at hops

/-- `cleanRanges` treats `Headers` and `Full` identically. -/
theorem cleanRanges_headers_full (rngs : List Rng) (d : DB) :
    cleanRanges .Headers rngs d = cleanRanges .Full rngs d := by
  induction rngs generalizing d with
  | nil => rfl
  | cons r rs ih =>
    have hcl : DBCleaner.clean d r DataType.Headers = DBCleaner.clean d r DataType.Full := rfl
    simp only [cleanRanges]
    rw [hcl]
    cases DBCleaner.clean d r DataType.Full with
    | error e => rfl
    | ok d' => exact ih d'

/-! ## C7 — `Clean(ranges, Headers)` is identical to `Clean(ranges, Full)` -/

/-- C7: for every database state, range list and failure pattern, cleaning
with kind `Headers` performs exactly the run that kind `Full` performs
(identical outcomes, fallible or not), because both kinds dispatch to
`cleanFull`; the shared statement sequence is, in order: storage blobs,
state blobs, receipt blobs, transaction blobs, uncle blobs, header blobs,
header metadata rows (child rows cascading with the header delete). -/
theorem clean_headers_equals_full (d : DB) (rngs : List Rng) (fs : List Nat) :
    CleanRun d rngs .Headers fs = CleanRun d rngs .Full fs ∧
    DBCleaner.Clean d rngs .Headers = DBCleaner.Clean d rngs .Full ∧
    cleanOps .Headers = cleanOps .Full ∧
    cleanOps .Full = some [cleanStorageIPLDs, cleanStateIPLDs, cleanReceiptIPLDs,
      cleanTransactionIPLDs, cleanUncleIPLDs, cleanHeaderIPLDs, cleanHeaderMetaData] := by
  refine ⟨rfl, ?_, rfl, rfl⟩
  unfold DBCleaner.Clean
  rw [cleanRanges_headers_full]
  rfl

/-! ## C8 — the streamer's subscription arguments -/

/-- C8: for every payload channel, `Stream` subscribes on namespace
`"statediff"` with method `"stream"`, and the parameters built by
`NewPayloadStreamer` have `includeBlock`, `includeTD`, `includeReceipts`,
`intermediateStorageNodes` and `intermediateStateNodes` all `true`. -/
theorem stream_subscribe_args (ch : Nat) :
    (PayloadStreamer.Stream NewPayloadStreamer ch).ns = "statediff" ∧
    (PayloadStreamer.Stream NewPayloadStreamer ch).method = "stream" ∧
    (PayloadStreamer.Stream NewPayloadStreamer ch).payloadChan = ch ∧
    (PayloadStreamer.Stream NewPayloadStreamer ch).params.includeBlock = true ∧
    (PayloadStreamer.Stream NewPayloadStreamer ch).params.includeTD = true ∧
    (PayloadStreamer.Stream NewPayloadStreamer ch).params.includeReceipts = true ∧
    (PayloadStreamer.Stream NewPayloadStreamer ch).params.intermediateStorageNodes = true ∧
    (PayloadStreamer.Stream NewPayloadStreamer ch).params.intermediateStateNodes = true :=
  ⟨rfl, rfl, rfl, rfl, rfl, rfl, rfl, rfl⟩

/-! ## C4 — unrecognized kind: `UnknownDataKind`, no side effects -/

/-- C4: for every database state and range list, a `Clean` with a kind
outside `{Full, Headers, Uncles, Transactions, Receipts, State, Storage}`
returns the `unrecognized type` error and leaves the committed state (blob
store and metadata store) unchanged — no deletion statement takes effect. -/
theorem clean_unknown_kind_no_side_effects (d : DB) (rngs : List Rng) (n : Nat) :
    (CleanRun d rngs (.other n) []).err = some .unknownDataKind ∧
    (CleanRun d rngs (.other n) []).committed = d ∧
    DBCleaner.Clean d rngs (.other n) = .error .unknownDataKind := by
  cases rngs with
  | nil => exact ⟨rfl, rfl, rfl⟩
  | cons r rs => exact ⟨rfl, rfl, rfl⟩

/-! ## C3 / C10 — `ResetValidation` -/

theorem resetValidation_header_cids (d : DB) (rngs : List Rng) :
    (DBCleaner.ResetValidation d rngs).header_cids =
      d.header_cids.map (resetHeader rngs) := by
  rw [resetValidation_eq rngs d]

theorem resetHeader_blockNumber (rngs : List Rng) (h : HeaderRow) :
    (resetHeader rngs h).blockNumber = h.blockNumber := by
  unfold resetHeader
  split <;> rfl

theorem resetHeader_idem (rngs : List Rng) (h : HeaderRow) :
    resetHeader rngs (resetHeader rngs h) = resetHeader rngs h := by
  by_cases hin : inAnyRangeB rngs h.blockNumber = true
  · simp [resetHeader, hin]
  · simp [resetHeader, hin]

theorem zip_map_eq {α β : Type} (f : α → β) :
    ∀ (l : List α) (p : β × α), p ∈ (l.map f).zip l → p.1 = f p.2 := by
  intro l
  induction l with
  | nil => intro p hp; simp at hp
  | cons a l ih =>
    intro p hp
    rw [List.map_cons, List.zip_cons_cons] at hp
    rcases List.mem_cons.mp hp with h | h
    · rw [h]
    · exact ih p h

/-- C3: after a successful `ResetValidation(ranges)` every header whose
block number falls in at least one range has `times_validated = 0`; the
update runs in one transaction, so on any error (begin, any per-range
`UPDATE`, commit) the committed state is unchanged — no header is updated;
and the operation is idempotent. -/
theorem resetValidation_resets_atomic_idempotent (d : DB) (rngs : List Rng) :
    (∀ h ∈ (DBCleaner.ResetValidation d rngs).header_cids,
      inAnyRangeB rngs h.blockNumber = true → h.timesValidated = 0) ∧
    (∀ fs : List Nat, (ResetValidationRun d rngs fs).err.isSome = true →
      (ResetValidationRun d rngs fs).committed = d) ∧
    DBCleaner.ResetValidation (DBCleaner.ResetValidation d rngs) rngs =
      DBCleaner.ResetValidation d rngs := by
  refine ⟨?_, ?_, ?_⟩
  · intro h hmem hin
    rw [resetValidation_header_cids] at hmem
    obtain ⟨a, _, rfl⟩ := List.mem_map.mp hmem
    rw [resetHeader_blockNumber] at hin
    simp [resetHeader, hin]
  · intro fs
    unfold ResetValidationRun
    split
    · intro _; rfl
    · split
      · intro _; rfl
      · split
        · intro _; rfl
        · intro hX; exact Bool.noConfusion hX
  · rw [resetValidation_eq rngs d, resetValidation_eq rngs]
    show ({ d with header_cids := (d.header_cids.map (resetHeader rngs)).map (resetHeader rngs) } : DB) = _
    rw [List.map_map]
    rw [List.map_congr_left (g := resetHeader rngs) ?_]
    intro a _
    exact resetHeader_idem rngs a

/-- C3 witness: at the concrete example state and range list `[(2,5)]`,
the atomicity hypothesis is discharged with a run whose first `UPDATE`
fails. -/
theorem resetValidation_resets_atomic_idempotent_witness :
    (∀ h ∈ (DBCleaner.ResetValidation exDB [(2, 5)]).header_cids,
      inAnyRangeB [(2, 5)] h.blockNumber = true → h.timesValidated = 0) ∧
    (ResetValidationRun exDB [(2, 5)] [1]).err.isSome = true ∧
    (ResetValidationRun exDB [(2, 5)] [1]).committed = exDB :=
  ⟨(resetValidation_resets_atomic_idempotent exDB [(2, 5)]).1, by decide,
    (resetValidation_resets_atomic_idempotent exDB [(2, 5)]).2.1 [1] (by decide)⟩

/-- C10: a successful `ResetValidation(ranges)` leaves every header row
whose block number is outside all the ranges entirely unchanged (every
column), and no rows appear or disappear. -/
theorem resetValidation_frame (d : DB) (rngs : List Rng) :
    (DBCleaner.ResetValidation d rngs).header_cids.length = d.header_cids.length ∧
    (DBCleaner.ResetValidation d rngs).blocks = d.blocks ∧
    (DBCleaner.ResetValidation d rngs).uncle_cids = d.uncle_cids ∧
    (DBCleaner.ResetValidation d rngs).transaction_cids = d.transaction_cids ∧
    (DBCleaner.ResetValidation d rngs).receipt_cids = d.receipt_cids ∧
    (DBCleaner.ResetValidation d rngs).state_cids = d.state_cids ∧
    (DBCleaner.ResetValidation d rngs).storage_cids = d.storage_cids ∧
    ∀ p ∈ (DBCleaner.ResetValidation d rngs).header_cids.zip d.header_cids,
      inAnyRangeB rngs p.2.blockNumber = false → p.1 = p.2 := by
  rw [resetValidation_eq rngs d]
  refine ⟨by simp, rfl, rfl, rfl, rfl, rfl, rfl, ?_⟩
  intro p hp hout
  have h1 : p.1 = resetHeader rngs p.2 := zip_map_eq (resetHeader rngs) d.header_cids p hp
  rw [h1]
  simp [resetHeader, hout]

/-- C10 witness: instantiated at the example state; header 2 (block 10,
outside `[2,5]`) is returned unchanged. -/
theorem resetValidation_frame_witness :
    (DBCleaner.ResetValidation exDB [(2, 5)]).header_cids.length = exDB.header_cids.length ∧
    (⟨2, 10, "hKey2", 2, "hb"⟩ : HeaderRow) ∈ (DBCleaner.ResetValidation exDB [(2, 5)]).header_cids := by
  refine ⟨(resetValidation_frame exDB [(2, 5)]).1, ?_⟩
  decide

/-! ## C2 — transactionality of `Clean` -/

/-- Counterexample to C2 as stated: with ranges `[(2,5), (9,12)]` and a
deletion failure while processing the second range, the whole (single)
transaction is rolled back: the committed state equals the initial state,
so the first range's deletions (which would have removed the block-3
header) ARE undone, and only one transaction was begun for the two
ranges. -/
theorem clean_per_range_transaction_counterexample :
    (CleanRun exDB [(2, 5), (9, 12)] DataType.Full [9]).err.isSome = true ∧
    (CleanRun exDB [(2, 5), (9, 12)] DataType.Full [9]).begins = 1 ∧
    ([((2 : Nat), (5 : Nat)), (9, 12)] : List Rng).length = 2 ∧
    (CleanRun exDB [(2, 5), (9, 12)] DataType.Full [9]).committed = exDB ∧
    ((CleanValue exDB [(2, 5)] DataType.Full).header_cids.any fun h =>
      between 2 h.blockNumber 5) = false ∧
    (exDB.header_cids.any fun h => between 2 h.blockNumber 5) = true := by
  decide

/-- Case analysis of a fallible `Clean` run: at most one transaction is
begun; a run without a successful commit returns an error and leaves the
committed state untouched; a run whose transaction commits commits exactly
the fully-cleaned state. -/
theorem CleanRun_cases (d : DB) (rngs : List Rng) (t : DataType) (fs : List Nat) :
    (CleanRun d rngs t fs).begins ≤ 1 ∧
    ((CleanRun d rngs t fs).committedTx = false →
      (CleanRun d rngs t fs).err.isSome = true ∧
      (CleanRun d rngs t fs).committed = d) ∧
    ((CleanRun d rngs t fs).committedTx = true →
      (CleanRun d rngs t fs).committed = CleanValue d rngs t) := by
  unfold CleanRun
  split
  · exact ⟨Nat.zero_le 1, fun _ => ⟨rfl, rfl⟩, fun hX => Bool.noConfusion hX⟩
  · split
    · exact ⟨Nat.le_refl 1, fun _ => ⟨rfl, rfl⟩, fun hX => Bool.noConfusion hX⟩
    · rename_i pending cnt hloop
      have hval : pending = CleanValue d rngs t :=
        cleanLoop_ok fs t rngs d 1 pending cnt hloop
      split
      · exact ⟨Nat.le_refl 1, fun _ => ⟨rfl, rfl⟩, fun hX => Bool.noConfusion hX⟩
      · split
        · exact ⟨Nat.le_refl 1, fun hX => Bool.noConfusion hX, fun _ => hval⟩
        · exact ⟨Nat.le_refl 1, fun hX => Bool.noConfusion hX, fun _ => hval⟩

/-- C2 amended: `Clean` opens a single transaction covering the whole range
list (at most one begin); when any deletion step errors, that transaction
is rolled back — undoing the deletions of all earlier ranges as well —
the remaining ranges are abandoned, the first error is returned, and the
committed stores are unchanged. -/
theorem clean_single_transaction_rollback (d : DB) (rngs : List Rng)
    (t : DataType) (fs : List Nat) :
    (CleanRun d rngs t fs).begins ≤ 1 ∧
    ((CleanRun d rngs t fs).committedTx = false →
      (CleanRun d rngs t fs).err.isSome = true ∧
      (CleanRun d rngs t fs).committed = d) :=
  ⟨(CleanRun_cases d rngs t fs).1, (CleanRun_cases d rngs t fs).2.1⟩

/-- C2 amended witness: a run whose first deletion statement fails returns
an error with the committed state unchanged. -/
theorem clean_single_transaction_rollback_witness :
    (CleanRun exDB [(2, 5)] DataType.Full [1]).begins ≤ 1 ∧
    (CleanRun exDB [(2, 5)] DataType.Full [1]).err.isSome = true ∧
    (CleanRun exDB [(2, 5)] DataType.Full [1]).committed = exDB :=
  ⟨(clean_single_transaction_rollback exDB [(2, 5)] DataType.Full [1]).1,
    ((clean_single_transaction_rollback exDB [(2, 5)] DataType.Full [1]).2 (by decide)).1,
    ((clean_single_transaction_rollback exDB [(2, 5)] DataType.Full [1]).2 (by decide)).2⟩

/-! ## C9 — an error from `Clean` does not imply an unchanged store -/

/-- C9: whenever the deletion transaction commits, the committed state is
exactly the fully-cleaned state, regardless of whether `Clean` then returns
an error — the vacuum/analyze phase runs only after the commit, so a
compaction failure yields an error return while the deletions stay
durable. -/
theorem clean_error_after_commit (d : DB) (rngs : List Rng) (t : DataType)
    (fs : List Nat) (h : (CleanRun d rngs t fs).committedTx = true) :
    (CleanRun d rngs t fs).committed = CleanValue d rngs t :=
  (CleanRun_cases d rngs t fs).2.2 h

/-- C9 witness: on the example state a Full clean of `[(2,5)]` whose first
vacuum statement (call 9, right after the commit at call 8) fails returns
an error, yet the committed state is the cleaned one and differs from the
initial state. -/
theorem clean_error_after_commit_witness :
    (CleanRun exDB [(2, 5)] DataType.Full [9]).committedTx = true ∧
    (CleanRun exDB [(2, 5)] DataType.Full [9]).err.isSome = true ∧
    (CleanRun exDB [(2, 5)] DataType.Full [9]).committed =
      CleanValue exDB [(2, 5)] DataType.Full ∧
    CleanValue exDB [(2, 5)] DataType.Full ≠ exDB :=
  ⟨by decide, by decide,
    clean_error_after_commit exDB [(2, 5)] DataType.Full [9] (by decide), by decide⟩

/-! ## C6 — the ownership chains survive every `Clean` -/

theorem ownership_CleanValue (t : DataType) :
    ∀ (rngs : List Rng) (d : DB), ownershipB d = true →
      ownershipB (CleanValue d rngs t) = true := by
  intro rngs
  induction rngs with
  | nil =>
    intro d hd
    cases hops : cleanOps t <;> simpa [CleanValue, hops] using hd
  | cons r rs ih =>
    intro d hd
    cases hops : cleanOps t with
    | none => simpa [CleanValue, hops] using hd
    | some ops =>
      have hstep : CleanValue d (r :: rs) t = CleanValue (applyOps ops d r) rs t := by
        simp [CleanValue, hops]
      rw [hstep]
      exact ih (applyOps ops d r) (ownership_applyOps t ops hops d r)

/-- C6: every `Clean` run — any kind, any range list, any failure pattern —
preserves the ownership invariant on the committed state: no `storage_cids`
row outlives its owning `state_cids` row and no `state_cids` row outlives
its owning `header_cids` row (every metadata `DELETE` cascades to the
descendants of the deleted rows). -/
theorem clean_preserves_ownership (d : DB) (rngs : List Rng) (t : DataType)
    (fs : List Nat) (h : ownershipB d = true) :
    ownershipB (CleanRun d rngs t fs).committed = true := by
  cases htx : (CleanRun d rngs t fs).committedTx with
  | false =>
    rw [((CleanRun_cases d rngs t fs).2.1 htx).2]
    exact h
  | true =>
    rw [(CleanRun_cases d rngs t fs).2.2 htx]
    exact ownership_CleanValue t rngs d h

/-- C6 witness: instantiated with the example state, a Full clean of
`[(2,5)]` and no injected failures. -/
theorem clean_preserves_ownership_witness :
    ownershipB exDB = true ∧
    ownershipB (CleanRun exDB [(2, 5)] DataType.Full []).committed = true :=
  ⟨by decide, clean_preserves_ownership exDB [(2, 5)] DataType.Full [] (by decide)⟩

/-! ## C5 — frame property of `Clean(r, Uncles)` -/

/-- C5: under the schema's integrity constraints, a successful
`Clean([r], Uncles)` removes exactly the uncle rows owned by an in-range
header and exactly the blobs keyed by those uncles' `mh_key`; the header,
transaction, receipt, state and storage tables — and every other blob —
are preserved exactly. -/
theorem clean_uncles_frame (db : DB) (lo hi : Nat) (hwf : wf db) :
    DBCleaner.Clean db [(lo, hi)] DataType.Uncles = Except.ok
      { db with
        uncle_cids := db.uncle_cids.filter fun u => !(uncleInRange db (lo, hi) u)
        blocks := db.blocks.filter fun a => !(uncleBlobRef db (lo, hi) a.key) } := by
  obtain ⟨-, -, -, h4u, h5t, h6r, h7s, h8st⟩ := hwf
  have h1 : DBCleaner.Clean db [(lo, hi)] DataType.Uncles = Except.ok
      (cleanUncleMetaData (cleanUncleIPLDs db (lo, hi)) (lo, hi)) := rfl
  rw [h1]
  congr 1
  have htx : db.transaction_cids.filter
      (fun t => db.header_cids.any fun h => t.headerId == h.id) = db.transaction_cids := by
    rw [List.filter_eq_self]
    intro t ht
    obtain ⟨h, hh, heq⟩ := h5t t ht
    exact List.any_eq_true.mpr ⟨h, hh, beq_iff_eq.mpr heq⟩
  have hsts : db.state_cids.filter
      (fun s => db.header_cids.any fun h => s.headerId == h.id) = db.state_cids := by
    rw [List.filter_eq_self]
    intro s hs
    obtain ⟨h, hh, heq⟩ := h7s s hs
    exact List.any_eq_true.mpr ⟨h, hh, beq_iff_eq.mpr heq⟩
  show cascade
    { db with
      uncle_cids := db.uncle_cids.filter fun u => !(uncleInRange db (lo, hi) u)
      blocks := db.blocks.filter fun a => !(uncleBlobRef db (lo, hi) a.key) } = _
  unfold cascade
  simp only [htx, hsts]
  have hunc : (db.uncle_cids.filter fun u => !(uncleInRange db (lo, hi) u)).filter
      (fun u => db.header_cids.any fun h => u.headerId == h.id) =
      db.uncle_cids.filter fun u => !(uncleInRange db (lo, hi) u) := by
    rw [List.filter_eq_self]
    intro u hu
    obtain ⟨h, hh, heq⟩ := h4u u (List.mem_filter.mp hu).1
    exact List.any_eq_true.mpr ⟨h, hh, beq_iff_eq.mpr heq⟩
  have hrct : db.receipt_cids.filter
      (fun r => db.transaction_cids.any fun t => r.txId == t.id) = db.receipt_cids := by
    rw [List.filter_eq_self]
    intro r hr
    obtain ⟨t, ht, heq⟩ := h6r r hr
    exact List.any_eq_true.mpr ⟨t, ht, beq_iff_eq.mpr heq⟩
  have hstor : db.storage_cids.filter
      (fun s => db.state_cids.any fun st => s.stateId == st.id) = db.storage_cids := by
    rw [List.filter_eq_self]
    intro s hs
    obtain ⟨st, hst, heq⟩ := h8st s hs
    exact List.any_eq_true.mpr ⟨st, hst, beq_iff_eq.mpr heq⟩
  rw [hunc, hrct, hstor]

/-- C5 witness: instantiated on the example state with range `[2,5]`:
uncle 1 (owned by the block-3 header) and its blob `uKey1` go, everything
else stays. -/
theorem clean_uncles_frame_witness :
    wf exDB ∧
    DBCleaner.Clean exDB [(2, 5)] DataType.Uncles = Except.ok
      { exDB with
        uncle_cids := exDB.uncle_cids.filter fun u => !(uncleInRange exDB (2, 5) u)
        blocks := exDB.blocks.filter fun a => !(uncleBlobRef exDB (2, 5) a.key) } :=
  ⟨by decide, clean_uncles_frame exDB 2 5 (by decide)⟩

/-! ## C1 — cascade correctness of `Clean([[lo,hi]], Full)` -/

/-- C1: after a successful `Clean([[lo,hi]], Full)` no row remains in any
of the six metadata tables whose block number (for child tables: the block
number of the owning header chain in the pre-state) lies in `[lo,hi]`, and
no blob remains whose `mh_key` was referenced only by the deleted rows
(referenced by some in-range row and by no out-of-range row). -/
theorem clean_full_cascade_correct (db : DB) (lo hi : Nat) (hwf : wf db) :
    DBCleaner.Clean db [(lo, hi)] DataType.Full =
      Except.ok (CleanValue db [(lo, hi)] DataType.Full) ∧
    (∀ h ∈ (CleanValue db [(lo, hi)] DataType.Full).header_cids,
      between lo h.blockNumber hi = false) ∧
    (∀ u ∈ (CleanValue db [(lo, hi)] DataType.Full).uncle_cids,
      uncleInRange db (lo, hi) u = false) ∧
    (∀ t ∈ (CleanValue db [(lo, hi)] DataType.Full).transaction_cids,
      txInRange db (lo, hi) t = false) ∧
    (∀ r ∈ (CleanValue db [(lo, hi)] DataType.Full).receipt_cids,
      rctInRange db (lo, hi) r = false) ∧
    (∀ s ∈ (CleanValue db [(lo, hi)] DataType.Full).state_cids,
      stateInRange db (lo, hi) s = false) ∧
    (∀ s ∈ (CleanValue db [(lo, hi)] DataType.Full).storage_cids,
      storageInRange db (lo, hi) s = false) ∧
    (∀ b ∈ (CleanValue db [(lo, hi)] DataType.Full).blocks,
      ¬(refByInRangeB db (lo, hi) b.key = true ∧
        refByOutRangeB db (lo, hi) b.key = false)) := by
  obtain ⟨hn1, hn2, hn3, -, -, -, -, -⟩ := hwf
  have hdrInj := List.inj_on_of_nodup_map hn1
  have txInj := List.inj_on_of_nodup_map hn2
  have stInj := List.inj_on_of_nodup_map hn3
  have hH : (CleanValue db [(lo, hi)] DataType.Full).header_cids =
      db.header_cids.filter (fun h => !(between lo h.blockNumber hi)) := rfl
  have hU : (CleanValue db [(lo, hi)] DataType.Full).uncle_cids =
      db.uncle_cids.filter (fun u =>
        (db.header_cids.filter (fun h => !(between lo h.blockNumber hi))).any
          fun h => u.headerId == h.id) := rfl
  have hT : (CleanValue db [(lo, hi)] DataType.Full).transaction_cids =
      db.transaction_cids.filter (fun t =>
        (db.header_cids.filter (fun h => !(between lo h.blockNumber hi))).any
          fun h => t.headerId == h.id) := rfl
  have hR : (CleanValue db [(lo, hi)] DataType.Full).receipt_cids =
      db.receipt_cids.filter (fun rr =>
        (db.transaction_cids.filter (fun t =>
          (db.header_cids.filter (fun h => !(between lo h.blockNumber hi))).any
            fun h => t.headerId == h.id)).any fun t => rr.txId == t.id) := rfl
  have hS : (CleanValue db [(lo, hi)] DataType.Full).state_cids =
      db.state_cids.filter (fun s =>
        (db.header_cids.filter (fun h => !(between lo h.blockNumber hi))).any
          fun h => s.headerId == h.id) := rfl
  have hSt : (CleanValue db [(lo, hi)] DataType.Full).storage_cids =
      db.storage_cids.filter (fun s =>
        (db.state_cids.filter (fun st =>
          (db.header_cids.filter (fun h => !(between lo h.blockNumber hi))).any
            fun h => st.headerId == h.id)).any fun st => s.stateId == st.id) := rfl
  have hB : (CleanValue db [(lo, hi)] DataType.Full).blocks =
      (((((db.blocks.filter (fun a => !(storageBlobRef db (lo, hi) a.key))).filter
        (fun a => !(stateBlobRef db (lo, hi) a.key))).filter
        (fun a => !(rctBlobRef db (lo, hi) a.key))).filter
        (fun a => !(txBlobRef db (lo, hi) a.key))).filter
        (fun a => !(uncleBlobRef db (lo, hi) a.key))).filter
        (fun a => !(headerBlobRef db (lo, hi) a.key)) := rfl
  refine ⟨rfl, ?_, ?_, ?_, ?_, ?_, ?_, ?_⟩
  · intro h hmem
    rw [hH] at hmem
    have hp := (List.mem_filter.mp hmem).2
    rwa [Bool.not_eq_eq_eq_not, Bool.not_true] at hp
  · intro u hmem
    rw [hU] at hmem
    obtain ⟨humem, hpred⟩ := List.mem_filter.mp hmem
    cases hx : uncleInRange db (lo, hi) u with
    | false => rfl
    | true =>
      exfalso
      obtain ⟨h, hh, hcond⟩ := List.any_eq_true.mp hx
      rw [Bool.and_eq_true] at hcond
      obtain ⟨hbeq, hbet⟩ := hcond
      obtain ⟨h', h'f, hbeq'⟩ := List.any_eq_true.mp hpred
      obtain ⟨h'mem, h'pred⟩ := List.mem_filter.mp h'f
      have hhe : h = h' :=
        hdrInj hh h'mem (by rw [← beq_iff_eq.mp hbeq, ← beq_iff_eq.mp hbeq'])
      rw [Bool.not_eq_eq_eq_not, Bool.not_true, ← hhe, hbet] at h'pred
      exact Bool.noConfusion h'pred
  · intro t hmem
    rw [hT] at hmem
    obtain ⟨htmem, hpred⟩ := List.mem_filter.mp hmem
    cases hx : txInRange db (lo, hi) t with
    | false => rfl
    | true =>
      exfalso
      obtain ⟨h, hh, hcond⟩ := List.any_eq_true.mp hx
      rw [Bool.and_eq_true] at hcond
      obtain ⟨hbeq, hbet⟩ := hcond
      obtain ⟨h', h'f, hbeq'⟩ := List.any_eq_true.mp hpred
      obtain ⟨h'mem, h'pred⟩ := List.mem_filter.mp h'f
      have hhe : h = h' :=
        hdrInj hh h'mem (by rw [← beq_iff_eq.mp hbeq, ← beq_iff_eq.mp hbeq'])
      rw [Bool.not_eq_eq_eq_not, Bool.not_true, ← hhe, hbet] at h'pred
      exact Bool.noConfusion h'pred
  · intro rr hmem
    rw [hR] at hmem
    obtain ⟨hrmem, hpred⟩ := List.mem_filter.mp hmem
    cases hx : rctInRange db (lo, hi) rr with
    | false => rfl
    | true =>
      exfalso
      obtain ⟨t, ht, hcond⟩ := List.any_eq_true.mp hx
      rw [Bool.and_eq_true] at hcond
      obtain ⟨hbeq, htx⟩ := hcond
      obtain ⟨h, hh, hcond2⟩ := List.any_eq_true.mp htx
      rw [Bool.and_eq_true] at hcond2
      obtain ⟨hbeq2, hbet⟩ := hcond2
      obtain ⟨t', t'f, hbeq'⟩ := List.any_eq_true.mp hpred
      obtain ⟨t'mem, t'pred⟩ := List.mem_filter.mp t'f
      obtain ⟨h', h'f, hbeq2'⟩ := List.any_eq_true.mp t'pred
      obtain ⟨h'mem, h'pred⟩ := List.mem_filter.mp h'f
      have hte : t = t' :=
        txInj ht t'mem (by rw [← beq_iff_eq.mp hbeq, ← beq_iff_eq.mp hbeq'])
      have hhe : h = h' := by
        refine hdrInj hh h'mem ?_
        rw [← beq_iff_eq.mp hbeq2, ← beq_iff_eq.mp hbeq2', hte]
      rw [Bool.not_eq_eq_eq_not, Bool.not_true, ← hhe, hbet] at h'pred
      exact Bool.noConfusion h'pred
  · intro s hmem
    rw [hS] at hmem
    obtain ⟨hsmem, hpred⟩ := List.mem_filter.mp hmem
    cases hx : stateInRange db (lo, hi) s with
    | false => rfl
    | true =>
      exfalso
      obtain ⟨h, hh, hcond⟩ := List.any_eq_true.mp hx
      rw [Bool.and_eq_true] at hcond
      obtain ⟨hbeq, hbet⟩ := hcond
      obtain ⟨h', h'f, hbeq'⟩ := List.any_eq_true.mp hpred
      obtain ⟨h'mem, h'pred⟩ := List.mem_filter.mp h'f
      have hhe : h = h' :=
        hdrInj hh h'mem (by rw [← beq_iff_eq.mp hbeq, ← beq_iff_eq.mp hbeq'])
      rw [Bool.not_eq_eq_eq_not, Bool.not_true, ← hhe, hbet] at h'pred
      exact Bool.noConfusion h'pred
  · intro s hmem
    rw [hSt] at hmem
    obtain ⟨hsmem, hpred⟩ := List.mem_filter.mp hmem
    cases hx : storageInRange db (lo, hi) s with
    | false => rfl
    | true =>
      exfalso
      obtain ⟨st, hst, hcond⟩ := List.any_eq_true.mp hx
      rw [Bool.and_eq_true] at hcond
      obtain ⟨hbeq, hstx⟩ := hcond
      obtain ⟨h, hh, hcond2⟩ := List.any_eq_true.mp hstx
      rw [Bool.and_eq_true] at hcond2
      obtain ⟨hbeq2, hbet⟩ := hcond2
      obtain ⟨st', st'f, hbeq'⟩ := List.any_eq_true.mp hpred
      obtain ⟨st'mem, st'pred⟩ := List.mem_filter.mp st'f
      obtain ⟨h', h'f, hbeq2'⟩ := List.any_eq_true.mp st'pred
      obtain ⟨h'mem, h'pred⟩ := List.mem_filter.mp h'f
      have hste : st = st' :=
        stInj hst st'mem (by rw [← beq_iff_eq.mp hbeq, ← beq_iff_eq.mp hbeq'])
      have hhe : h = h' := by
        refine hdrInj hh h'mem ?_
        rw [← beq_iff_eq.mp hbeq2, ← beq_iff_eq.mp hbeq2', hste]
      rw [Bool.not_eq_eq_eq_not, Bool.not_true, ← hhe, hbet] at h'pred
      exact Bool.noConfusion h'pred
  · intro b hmem hand
    obtain ⟨hin, -⟩ := hand
    rw [hB] at hmem
    obtain ⟨hm5, hnotHeader⟩ := List.mem_filter.mp hmem
    obtain ⟨hm4, hnotUncle⟩ := List.mem_filter.mp hm5
    obtain ⟨hm3, hnotTx⟩ := List.mem_filter.mp hm4
    obtain ⟨hm2, hnotRct⟩ := List.mem_filter.mp hm3
    obtain ⟨hm1, hnotState⟩ := List.mem_filter.mp hm2
    obtain ⟨hm0, hnotStorage⟩ := List.mem_filter.mp hm1
    rw [Bool.not_eq_eq_eq_not, Bool.not_true] at hnotHeader hnotUncle hnotTx hnotRct hnotState hnotStorage
    have hfalse : refByInRangeB db (lo, hi) b.key = false := by
      simp only [refByInRangeB, hnotHeader, hnotUncle, hnotTx, hnotRct, hnotState,
        hnotStorage, Bool.or_self, Bool.or_false, Bool.false_or]
    rw [hfalse] at hin
    exact Bool.noConfusion hin

/-- C1 witness: instantiated on the example state with range `[2,5]`
(covering the block-3 header and its descendants). -/
theorem clean_full_cascade_correct_witness :
    wf exDB ∧
    DBCleaner.Clean exDB [(2, 5)] DataType.Full =
      Except.ok (CleanValue exDB [(2, 5)] DataType.Full) ∧
    (∀ h ∈ (CleanValue exDB [(2, 5)] DataType.Full).header_cids,
      between 2 h.blockNumber 5 = false) ∧
    (∀ u ∈ (CleanValue exDB [(2, 5)] DataType.Full).uncle_cids,
      uncleInRange exDB (2, 5) u = false) :=
  ⟨by decide, (clean_full_cascade_correct exDB 2 5 (by decide)).1,
    (clean_full_cascade_correct exDB 2 5 (by decide)).2.1,
    (clean_full_cascade_correct exDB 2 5 (by decide)).2.2.1⟩

end IpldEth
